import Mathlib

/-!
Verification of the esi-client repository: a shallow embedding of the OAuth
PKCE helper (src/oauth.mjs) and the generic ESI API client
(src/unnamed/part_000), with theorems settling the specification claims.

Modelling conventions:
* JavaScript runtime values are represented by `JsValue`; `undefined` is
  represented by `Option JsValue` with `none` playing the role of
  `undefined` (a missing object property).
* `JSON.parse` / `JSON.stringify` are modelled by `jsonParse` /
  `jsonStringify` over `JsValue`.  JSON numbers are modelled as integers
  (`Int`); fractional and exponent number forms, which involve IEEE
  floating point, are outside the model and rejected by `jsonParse`.
  Lone UTF-16 surrogates, which Lean's `Char` cannot represent, are also
  outside the model.
* An `async` JavaScript function returns a `Promise`; a `Promise` is an
  object and every object is truthy.  `JsPromise` carries the eventual
  settlement (`Except` for rejected/resolved) and `JsPromise.isTruthy`
  is constantly `true`, exactly as in the JavaScript source, where
  `getTokenFromCache` tests `if (validateJwt(...))` on the promise object
  itself.
-/

/-- A JavaScript value as produced by `JSON.parse` (numbers restricted to
integers; see the module comment). -/
inductive JsValue where
  | null
  | boolean (b : Bool)
  | num (n : Int)
  | str (s : String)
  | arr (elements : List JsValue)
  | obj (fields : List (String × JsValue))
deriving Repr, BEq

/-- JavaScript truthiness of a value: `null`, `false`, `0` and `""` are
falsy; every array and object is truthy. -/
def jsTruthy : JsValue → Bool
  | .null => false
  | .boolean b => b
  | .num n => !(n == 0)
  | .str s => !(s == "")
  | .arr _ => true
  | .obj _ => true

/-- Property lookup on an object field list; with duplicate keys the last
occurrence wins, matching how `JSON.parse` builds JavaScript objects. -/
def jsFieldLookup (key : String) : List (String × JsValue) → Option JsValue
  | [] => none
  | kv :: rest =>
    match jsFieldLookup key rest with
    | some v => some v
    | none => if kv.1 = key then some kv.2 else none

/-- JavaScript property access `v.key`; `none` models `undefined`
(missing property, or property access on a non-object primitive). -/
def jsGetField (v : JsValue) (key : String) : Option JsValue :=
  match v with
  | .obj fields => jsFieldLookup key fields
  | _ => none

/-- Truthiness of a possibly-`undefined` value (`undefined` is falsy). -/
def jsTruthyOpt : Option JsValue → Bool
  | none => false
  | some v => jsTruthy v

/-- Decimal digit characters, most significant first, by structural
recursion on a fuel bound (so that the definition computes by kernel
reduction); `natDecChars` supplies sufficient fuel. -/
def natDecCharsAux (fuel : Nat) (n : Nat) : List Char :=
  match fuel with
  | 0 => []
  | f + 1 =>
    if n < 10 then [Char.ofNat (48 + n)]
    else natDecCharsAux f (n / 10) ++ [Char.ofNat (48 + n % 10)]

/-- Decimal digit characters of a natural number, most significant first
(the digit form `String(n)` and `JSON.stringify` emit). -/
def natDecChars (n : Nat) : List Char :=
  natDecCharsAux (n + 1) n

/-- Decimal character form of an integer: optional minus sign, then digits. -/
def intDecChars (i : Int) : List Char :=
  if i < 0 then '-' :: natDecChars i.natAbs else natDecChars i.natAbs

mutual
/-- String coercion `String(v)` as used by `new Error(v)` and
`URLSearchParams.append`: arrays join their element coercions with commas,
plain objects display as "[object Object]". -/
def jsToDisplayString : JsValue → String
  | .null => "null"
  | .boolean true => "true"
  | .boolean false => "false"
  | .num n => String.mk (intDecChars n)
  | .str s => s
  | .arr elements => String.mk (jsDisplayElems elements)
  | .obj _ => "[object Object]"
/-- Comma-joined element coercions, as `Array.prototype.toString` does. -/
def jsDisplayElems : List JsValue → List Char
  | [] => []
  | [e] => (jsToDisplayString e).data
  | e :: e2 :: rest => (jsToDisplayString e).data ++ ',' :: jsDisplayElems (e2 :: rest)
end

/-! ## The JSON text codec: `JSON.stringify` and `JSON.parse` -/

/-- Lowercase hexadecimal digit character, as emitted by the
JavaScript JSON string escaper for control characters. -/
def jsonHexDigit (d : Nat) : Char :=
  if d < 10 then Char.ofNat (48 + d) else Char.ofNat (87 + d)

/-- One character of a JSON string, escaped as `JSON.stringify` escapes it:
quote and backslash get a backslash escape, the five named control
characters get their short forms, the remaining control characters become
lowercase u-escapes, and everything else is emitted literally. -/
def jsonEscapeChar (c : Char) : List Char :=
  if c = '"' then ['\\', '"']
  else if c = '\\' then ['\\', '\\']
  else if c = '\x08' then ['\\', 'b']
  else if c = '\x09' then ['\\', 't']
  else if c = '\x0a' then ['\\', 'n']
  else if c = '\x0c' then ['\\', 'f']
  else if c = '\x0d' then ['\\', 'r']
  else if c.toNat < 32 then
    ['\\', 'u', '0', '0', jsonHexDigit (c.toNat / 16), jsonHexDigit (c.toNat % 16)]
  else [c]

/-- A double-quoted, escaped JSON string literal for `s`. -/
def jsonQuote (s : String) : List Char :=
  '"' :: (s.data.flatMap jsonEscapeChar ++ ['"'])

mutual
/-- `JSON.stringify` character output for a value (no added whitespace). -/
def jsonStringifyChars : JsValue → List Char
  | .null => ['n', 'u', 'l', 'l']
  | .boolean true => ['t', 'r', 'u', 'e']
  | .boolean false => ['f', 'a', 'l', 's', 'e']
  | .num n => intDecChars n
  | .str s => jsonQuote s
  | .arr elements => '[' :: (jsonStringifyElems elements ++ [']'])
  | .obj fields => '{' :: (jsonStringifyFields fields ++ ['}'])
/-- Comma-separated renderings of array elements. -/
def jsonStringifyElems : List JsValue → List Char
  | [] => []
  | [e] => jsonStringifyChars e
  | e :: e2 :: rest => jsonStringifyChars e ++ ',' :: jsonStringifyElems (e2 :: rest)
/-- Comma-separated `"key":value` renderings of object fields. -/
def jsonStringifyFields : List (String × JsValue) → List Char
  | [] => []
  | [kv] => jsonQuote kv.1 ++ ':' :: jsonStringifyChars kv.2
  | kv :: kv2 :: rest =>
    jsonQuote kv.1 ++ ':' :: jsonStringifyChars kv.2 ++ ',' :: jsonStringifyFields (kv2 :: rest)
end

/-- `JSON.stringify` of a value, as a string. -/
def jsonStringify (v : JsValue) : String :=
  String.mk (jsonStringifyChars v)

/-- JSON whitespace (space, tab, line feed, carriage return). -/
def jsonIsWs (c : Char) : Bool :=
  c == ' ' || c == '\x09' || c == '\x0a' || c == '\x0d'

/-- Drop leading JSON whitespace. -/
def jsonSkipWs : List Char → List Char
  | c :: rest => if jsonIsWs c then jsonSkipWs rest else c :: rest
  | [] => []

/-- ASCII decimal digit test. -/
def jsonIsDigit (c : Char) : Bool :=
  '0' ≤ c && c ≤ '9'

/-- Split off the longest leading run of decimal digits. -/
def jsonTakeDigits : List Char → List Char × List Char
  | c :: rest =>
    if jsonIsDigit c then
      let p := jsonTakeDigits rest
      (c :: p.1, p.2)
    else ([], c :: rest)
  | [] => ([], [])

/-- Numeric value of a list of decimal digit characters. -/
def jsonDigitsVal (ds : List Char) : Nat :=
  ds.foldl (fun acc c => acc * 10 + (c.toNat - 48)) 0

/-- Value of a hexadecimal digit character, if it is one. -/
def jsonHexVal (c : Char) : Option Nat :=
  if '0' ≤ c && c ≤ '9' then some (c.toNat - 48)
  else if 'a' ≤ c && c ≤ 'f' then some (c.toNat - 87)
  else if 'A' ≤ c && c ≤ 'F' then some (c.toNat - 55)
  else none

/-- The character named by a short escape (`\"`, `\\`, `\/`, `\b`, `\f`,
`\n`, `\r`, `\t`), if any. -/
def jsonShortEscape (e : Char) : Option Char :=
  if e = '"' then some '"'
  else if e = '\\' then some '\\'
  else if e = '/' then some '/'
  else if e = 'b' then some '\x08'
  else if e = 'f' then some '\x0c'
  else if e = 'n' then some '\x0a'
  else if e = 'r' then some '\x0d'
  else if e = 't' then some '\x09'
  else none

/-- Parse the body of a JSON string literal after the opening quote,
accumulating decoded characters in reverse in `acc`.  Raw control
characters are rejected, as `JSON.parse` rejects them. -/
def jsonParseStringBody (acc : List Char) : List Char → Option (String × List Char)
  | [] => none
  | c :: rest =>
    if c = '"' then some (String.mk acc.reverse, rest)
    else if c = '\\' then
      match rest with
      | [] => none
      | e :: rest2 =>
        if e = 'u' then
          match rest2 with
          | h1 :: h2 :: h3 :: h4 :: rest3 =>
            match jsonHexVal h1, jsonHexVal h2, jsonHexVal h3, jsonHexVal h4 with
            | some a, some b, some c2, some d =>
              jsonParseStringBody (Char.ofNat (((a * 16 + b) * 16 + c2) * 16 + d) :: acc) rest3
            | _, _, _, _ => none
          | _ => none
        else
          match jsonShortEscape e with
          | some decoded => jsonParseStringBody (decoded :: acc) rest2
          | none => none
    else if c.toNat < 32 then none
    else jsonParseStringBody (c :: acc) rest

/-- Parse a JSON number (integer forms only; see the module comment:
fraction and exponent forms would need floating point, so the model
rejects them). -/
def jsonParseNumber (cs : List Char) : Option (Int × List Char) :=
  let signSplit : Bool × List Char :=
    match cs with
    | '-' :: r => (true, r)
    | _ => (false, cs)
  let p := jsonTakeDigits signSplit.2
  if p.1.isEmpty then none
  else
    match p.2 with
    | '.' :: _ => none
    | 'e' :: _ => none
    | 'E' :: _ => none
    | _ =>
      some ((if signSplit.1 then -(jsonDigitsVal p.1 : Int) else (jsonDigitsVal p.1 : Int)), p.2)

mutual
/-- Parse one JSON value; `fuel` only guarantees termination (the top
entry point supplies more fuel than any input can consume). -/
def jsonParseValue (fuel : Nat) (cs : List Char) : Option (JsValue × List Char) :=
  match fuel with
  | 0 => none
  | fuel + 1 =>
    match jsonSkipWs cs with
    | 'n' :: 'u' :: 'l' :: 'l' :: r => some (.null, r)
    | 't' :: 'r' :: 'u' :: 'e' :: r => some (.boolean true, r)
    | 'f' :: 'a' :: 'l' :: 's' :: 'e' :: r => some (.boolean false, r)
    | '"' :: r =>
      match jsonParseStringBody [] r with
      | some (s, r2) => some (.str s, r2)
      | none => none
    | '[' :: r =>
      match jsonSkipWs r with
      | ']' :: r2 => some (.arr [], r2)
      | cs2 =>
        match jsonParseElements fuel cs2 with
        | some (es, r2) => some (.arr es, r2)
        | none => none
    | '{' :: r =>
      match jsonSkipWs r with
      | '}' :: r2 => some (.obj [], r2)
      | cs2 =>
        match jsonParseMembers fuel cs2 with
        | some (fs, r2) => some (.obj fs, r2)
        | none => none
    | cs2 =>
      match jsonParseNumber cs2 with
      | some (n, r2) => some (.num n, r2)
      | none => none
/-- Parse one or more comma-separated array elements up to `]`. -/
def jsonParseElements (fuel : Nat) (cs : List Char) : Option (List JsValue × List Char) :=
  match fuel with
  | 0 => none
  | fuel + 1 =>
    match jsonParseValue fuel cs with
    | none => none
    | some (v, r) =>
      match jsonSkipWs r with
      | ',' :: r2 =>
        match jsonParseElements fuel r2 with
        | some (vs, r3) => some (v :: vs, r3)
        | none => none
      | ']' :: r2 => some ([v], r2)
      | _ => none
/-- Parse one or more comma-separated `"key": value` members up to `}`. -/
def jsonParseMembers (fuel : Nat) (cs : List Char) : Option (List (String × JsValue) × List Char) :=
  match fuel with
  | 0 => none
  | fuel + 1 =>
    match jsonSkipWs cs with
    | '"' :: r =>
      match jsonParseStringBody [] r with
      | none => none
      | some (key, r1) =>
        match jsonSkipWs r1 with
        | ':' :: r2 =>
          match jsonParseValue fuel r2 with
          | none => none
          | some (v, r3) =>
            match jsonSkipWs r3 with
            | ',' :: r4 =>
              match jsonParseMembers fuel r4 with
              | some (fs, r5) => some ((key, v) :: fs, r5)
              | none => none
            | '}' :: r4 => some ([(key, v)], r4)
            | _ => none
        | _ => none
    | _ => none
end

/-- `JSON.parse`: `none` models a thrown `SyntaxError`. -/
def jsonParse (s : String) : Option JsValue :=
  match jsonParseValue (s.length + 1) s.data with
  | some (v, r) => if (jsonSkipWs r).isEmpty then some v else none
  | none => none

/-! ## Byte-level primitives: UTF-8, SHA-256 and base64url

These model the Node builtins the source uses: `Buffer.from(string)`,
`createHash('sha256')` and `Buffer.toString('base64url')`.  Bytes are
naturals below 256 and 32-bit words are naturals reduced by `w32`. -/

/-- UTF-8 encoding of one scalar value (1 to 4 bytes). -/
def utf8EncodeChar (c : Char) : List Nat :=
  let n := c.toNat
  if n < 128 then [n]
  else if n < 2048 then [192 + n / 64, 128 + n % 64]
  else if n < 65536 then [224 + n / 4096, 128 + n / 64 % 64, 128 + n % 64]
  else [240 + n / 262144, 128 + n / 4096 % 64, 128 + n / 64 % 64, 128 + n % 64]

/-- UTF-8 bytes of a string, as `Buffer.from(s)` produces. -/
def utf8Encode (s : String) : List Nat :=
  s.data.flatMap utf8EncodeChar

/-- Is `b` a UTF-8 continuation byte? -/
def utf8IsCont (b : Nat) : Bool :=
  128 ≤ b && b < 192

/-- UTF-8 decoding to characters (structure check only; overlong-form
rejection is not modelled, and never arises on interior inputs). -/
def utf8DecodeChars : List Nat → Option (List Char)
  | [] => some []
  | b1 :: rest =>
    if b1 < 128 then
      match utf8DecodeChars rest with
      | some cs => some (Char.ofNat b1 :: cs)
      | none => none
    else if b1 < 192 then none
    else if b1 < 224 then
      match rest with
      | b2 :: rest2 =>
        if utf8IsCont b2 then
          match utf8DecodeChars rest2 with
          | some cs => some (Char.ofNat ((b1 - 192) * 64 + (b2 - 128)) :: cs)
          | none => none
        else none
      | _ => none
    else if b1 < 240 then
      match rest with
      | b2 :: b3 :: rest2 =>
        if utf8IsCont b2 && utf8IsCont b3 then
          match utf8DecodeChars rest2 with
          | some cs => some (Char.ofNat (((b1 - 224) * 64 + (b2 - 128)) * 64 + (b3 - 128)) :: cs)
          | none => none
        else none
      | _ => none
    else
      match rest with
      | b2 :: b3 :: b4 :: rest2 =>
        if utf8IsCont b2 && utf8IsCont b3 && utf8IsCont b4 then
          match utf8DecodeChars rest2 with
          | some cs =>
            some (Char.ofNat ((((b1 - 240) * 64 + (b2 - 128)) * 64 + (b3 - 128)) * 64 + (b4 - 128)) :: cs)
          | none => none
        else none
      | _ => none

/-- UTF-8 decoding of a byte list to a string. -/
def utf8Decode (bytes : List Nat) : Option String :=
  match utf8DecodeChars bytes with
  | some cs => some (String.mk cs)
  | none => none

/-- Reduce to a 32-bit word. -/
def w32 (n : Nat) : Nat := n % 4294967296

/-- Rotate a 32-bit word right by `k` bits. -/
def rotr32 (k x : Nat) : Nat := w32 ((x >>> k) ||| (x <<< (32 - k)))

/-- SHA-256 choice function. -/
def sha256Ch (x y z : Nat) : Nat := (x &&& y) ^^^ ((4294967295 ^^^ x) &&& z)

/-- SHA-256 majority function. -/
def sha256Maj (x y z : Nat) : Nat := (x &&& y) ^^^ (x &&& z) ^^^ (y &&& z)

/-- SHA-256 big sigma 0. -/
def sha256BigS0 (x : Nat) : Nat := rotr32 2 x ^^^ rotr32 13 x ^^^ rotr32 22 x

/-- SHA-256 big sigma 1. -/
def sha256BigS1 (x : Nat) : Nat := rotr32 6 x ^^^ rotr32 11 x ^^^ rotr32 25 x

/-- SHA-256 small sigma 0. -/
def sha256SmallS0 (x : Nat) : Nat := rotr32 7 x ^^^ rotr32 18 x ^^^ (x >>> 3)

/-- SHA-256 small sigma 1. -/
def sha256SmallS1 (x : Nat) : Nat := rotr32 17 x ^^^ rotr32 19 x ^^^ (x >>> 10)

/-- The 64 SHA-256 round constants. -/
def sha256K : List Nat :=
  [1116352408, 1899447441, 3049323471, 3921009573, 961987163, 1508970993,
   2453635748, 2870763221, 3624381080, 310598401, 607225278, 1426881987,
   1925078388, 2162078206, 2614888103, 3248222580, 3835390401, 4022224774,
   264347078, 604807628, 770255983, 1249150122, 1555081692, 1996064986,
   2554220882, 2821834349, 2952996808, 3210313671, 3336571891, 3584528711,
   113926993, 338241895, 666307205, 773529912, 1294757372, 1396182291,
   1695183700, 1986661051, 2177026350, 2456956037, 2730485921, 2820302411,
   3259730800, 3345764771, 3516065817, 3600352804, 4094571909, 275423344,
   430227734, 506948616, 659060556, 883997877, 958139571, 1322822218,
   1537002063, 1747873779, 1955562222, 2024104815, 2227730452, 2361852424,
   2428436474, 2756734187, 3204031479, 3329325298]

/-- The SHA-256 initial hash state. -/
def sha256H0 : List Nat :=
  [1779033703, 3144134277, 1013904242, 2773480762, 1359893119, 2600822924,
   528734635, 1541459225]

/-- Big-endian byte expansion of `n` to `count` bytes. -/
def beBytes (count : Nat) (n : Nat) : List Nat :=
  match count with
  | 0 => []
  | k + 1 => beBytes k (n / 256) ++ [n % 256]

/-- SHA-256 message padding: a 0x80 byte, zero bytes up to 56 mod 64, and
the bit length as 8 big-endian bytes. -/
def sha256Pad (msg : List Nat) : List Nat :=
  let zeros := (119 - msg.length % 64) % 64
  msg ++ 128 :: List.replicate zeros 0 ++ beBytes 8 (msg.length * 8)

set_option linter.unusedVariables false in
/-- Split a byte list into 64-byte chunks. -/
def sha256Chunks (l : List Nat) : List (List Nat) :=
  if h : l.isEmpty then []
  else l.take 64 :: sha256Chunks (l.drop 64)
termination_by l.length
decreasing_by
  simp only [List.length_drop]
  simp only [List.isEmpty_iff] at h
  have hp : 0 < l.length := List.length_pos.mpr h
  omega

/-- Big-endian 32-bit words of a 64-byte chunk. -/
def sha256ChunkWords : List Nat → List Nat
  | b1 :: b2 :: b3 :: b4 :: rest =>
    (((b1 * 256 + b2) * 256 + b3) * 256 + b4) :: sha256ChunkWords rest
  | _ => []

/-- Extend a 16-word schedule by `count` further words. -/
def sha256Extend (w : List Nat) : Nat → List Nat
  | 0 => w
  | k + 1 =>
    let i := w.length
    let next := w32 (sha256SmallS1 (w.getD (i - 2) 0) + w.getD (i - 7) 0
      + sha256SmallS0 (w.getD (i - 15) 0) + w.getD (i - 16) 0)
    sha256Extend (w ++ [next]) k

/-- The eight working variables of the SHA-256 compression loop. -/
structure Sha256State where
  va : Nat
  vb : Nat
  vc : Nat
  vd : Nat
  ve : Nat
  vf : Nat
  vg : Nat
  vh : Nat

/-- One round of the SHA-256 compression loop, consuming one round
constant paired with one schedule word. -/
def sha256Round (st : Sha256State) (kw : Nat × Nat) : Sha256State :=
  let t1 := w32 (st.vh + sha256BigS1 st.ve + sha256Ch st.ve st.vf st.vg + kw.1 + kw.2)
  let t2 := w32 (sha256BigS0 st.va + sha256Maj st.va st.vb st.vc)
  ⟨w32 (t1 + t2), st.va, st.vb, st.vc, w32 (st.vd + t1), st.ve, st.vf, st.vg⟩

/-- Compress one 64-byte chunk into the running hash values. -/
def sha256Compress (hs : List Nat) (chunk : List Nat) : List Nat :=
  let w := sha256Extend (sha256ChunkWords chunk) 48
  let start : Sha256State :=
    ⟨hs.getD 0 0, hs.getD 1 0, hs.getD 2 0, hs.getD 3 0,
     hs.getD 4 0, hs.getD 5 0, hs.getD 6 0, hs.getD 7 0⟩
  let fin := (sha256K.zip w).foldl sha256Round start
  [w32 (hs.getD 0 0 + fin.va), w32 (hs.getD 1 0 + fin.vb), w32 (hs.getD 2 0 + fin.vc),
   w32 (hs.getD 3 0 + fin.vd), w32 (hs.getD 4 0 + fin.ve), w32 (hs.getD 5 0 + fin.vf),
   w32 (hs.getD 6 0 + fin.vg), w32 (hs.getD 7 0 + fin.vh)]

/-- The SHA-256 digest (32 bytes) of a byte message, modelling
`createHash('sha256').update(msg).digest()`. -/
def sha256 (msg : List Nat) : List Nat :=
  ((sha256Chunks (sha256Pad msg)).foldl sha256Compress sha256H0).flatMap (beBytes 4)

/-- The 64-character base64url alphabet; it contains no `=`. -/
def base64urlAlphabet : List Char :=
  "ABCDEFGHIJKLMNOPQRSTUVWXYZabcdefghijklmnopqrstuvwxyz0123456789-_".data

/-- The base64url character for a 6-bit group. -/
def base64urlDigit (n : Nat) : Char :=
  base64urlAlphabet.getD n 'A'

/-- Base64url character output: 3-byte groups become 4 characters, a
final 1- or 2-byte group becomes 2 or 3 characters, and no padding is
ever appended, matching `Buffer.toString('base64url')`. -/
def base64urlChunkChars : List Nat → List Char
  | b1 :: b2 :: b3 :: rest =>
    base64urlDigit (b1 / 4) :: base64urlDigit (b1 % 4 * 16 + b2 / 16) ::
    base64urlDigit (b2 % 16 * 4 + b3 / 64) :: base64urlDigit (b3 % 64) ::
    base64urlChunkChars rest
  | [b1, b2] =>
    [base64urlDigit (b1 / 4), base64urlDigit (b1 % 4 * 16 + b2 / 16),
     base64urlDigit (b2 % 16 * 4)]
  | [b1] =>
    [base64urlDigit (b1 / 4), base64urlDigit (b1 % 4 * 16)]
  | [] => []

/-- Base64url encoding of a byte list (no padding). -/
def base64urlEncode (bytes : List Nat) : String :=
  String.mk (base64urlChunkChars bytes)

/-- The 6-bit value of a base64url character, if it is one. -/
def base64urlDigitVal (c : Char) : Option Nat :=
  if 'A' ≤ c && c ≤ 'Z' then some (c.toNat - 65)
  else if 'a' ≤ c && c ≤ 'z' then some (c.toNat - 71)
  else if '0' ≤ c && c ≤ '9' then some (c.toNat + 4)
  else if c = '-' then some 62
  else if c = '_' then some 63
  else none

/-- Base64url decoding of a character list to bytes (unpadded form). -/
def base64urlDecodeChars : List Char → Option (List Nat)
  | [] => some []
  | [_] => none
  | [c1, c2] =>
    match base64urlDigitVal c1, base64urlDigitVal c2 with
    | some v1, some v2 => some [v1 * 4 + v2 / 16]
    | _, _ => none
  | [c1, c2, c3] =>
    match base64urlDigitVal c1, base64urlDigitVal c2, base64urlDigitVal c3 with
    | some v1, some v2, some v3 => some [v1 * 4 + v2 / 16, v2 % 16 * 16 + v3 / 4]
    | _, _, _ => none
  | c1 :: c2 :: c3 :: c4 :: rest =>
    match base64urlDigitVal c1, base64urlDigitVal c2, base64urlDigitVal c3,
        base64urlDigitVal c4, base64urlDecodeChars rest with
    | some v1, some v2, some v3, some v4, some bs =>
      some ((v1 * 4 + v2 / 16) :: (v2 % 16 * 16 + v3 / 4) :: (v3 % 4 * 64 + v4) :: bs)
    | _, _, _, _, _ => none

/-! ## src/oauth.mjs: PKCE verifier and challenge -/

/-- `generateCodeVerifier` (src/oauth.mjs line 16): base64url of the
UTF-8 bytes of a 32-character random string from `randomstring.generate`;
the random string is the explicit argument here. -/
def generateCodeVerifier (randomChars : String) : String :=
  base64urlEncode (utf8Encode randomChars)

/-- `generateCodeChallenge` (src/oauth.mjs line 20):
`createHash('sha256').update(code_verifier).digest('base64url')`. -/
def generateCodeChallenge (code_verifier : String) : String :=
  base64urlEncode (sha256 (utf8Encode code_verifier))

/-! ## src/oauth.mjs: JWT decoding and the cache -/

/-- Split a character list at every occurrence of `sep`, as
`String.prototype.split` does (an empty input yields one empty part). -/
def jsSplitOnChar (sep : Char) : List Char → List (List Char)
  | [] => [[]]
  | c :: rest =>
    let parts := jsSplitOnChar sep rest
    if c = sep then [] :: parts
    else
      match parts with
      | p :: ps => (c :: p) :: ps
      | [] => [[c]]

/-- `token.split(sep)` on strings. -/
def jsStringSplit (sep : Char) (s : String) : List String :=
  (jsSplitOnChar sep s.data).map String.mk

/-- The `jwt-decode` library's `jwtDecode(token)`: base64url-decode the
second dot-separated segment and parse it as JSON.  `none` models the
`InvalidTokenError` it throws on malformed input. -/
def jwtDecode (token : String) : Option JsValue :=
  match jsStringSplit '.' token with
  | _ :: payload :: _ =>
    match base64urlDecodeChars payload.data with
    | some bytes =>
      match utf8Decode bytes with
      | some text => jsonParse text
      | none => none
    | none => none
  | _ => none

/-- The value of an `async` JavaScript function call: a `Promise` object
carrying its eventual settlement (`Except.error` for a rejection). -/
structure JsPromise (α : Type) where
  settlement : Except String α

/-- Truthiness of a `Promise` object.  A `Promise` is an object, and every
JavaScript object is truthy, whatever it will settle to.  This is how
`getTokenFromCache` (src/oauth.mjs line 80) consumes `validateJwt`: the
`async` call is not awaited, so the condition tests the promise itself. -/
def JsPromise.isTruthy {α : Type} (_ : JsPromise α) : Bool := true

/-- `validateJwt` (src/oauth.mjs lines 41-52), an `async` function: its
settlement is `some false` when decoding yields no truthy `exp` claim,
`some true` when `now < exp`, and `none` (JavaScript `undefined`, from
the implicit return) when the token is expired.  A non-string token or an
undecodable one rejects, as `jwtDecode` throws inside the `async` body.
(The source compares `exp` against `(Date.now()/1000).toFixed(0)`, a
decimal string; for a numeric `exp` that comparison is numeric, which is
the only case the model gives meaning to.) -/
def validateJwt (access_token : JsValue) (now : Int) : JsPromise (Option Bool) :=
  match access_token with
  | .str token =>
    match jwtDecode token with
    | none => ⟨.error "InvalidTokenError"⟩
    | some jwt =>
      if !(jsTruthy jwt && jsTruthyOpt (jsGetField jwt "exp")) then ⟨.ok (some false)⟩
      else
        match jsGetField jwt "exp" with
        | some (.num e) => if now < e then ⟨.ok (some true)⟩ else ⟨.ok none⟩
        | _ => ⟨.ok none⟩
  | _ => ⟨.error "TypeError"⟩

/-- What `getTokenFromCache` (src/oauth.mjs lines 72-90) does with the
cache file's content. -/
inductive CacheLoadResult where
  | thrown (message : String)
  | jsUndefined
  | record (json : JsValue)
  | refreshCall (refresh_token : JsValue)
deriving Repr, BEq

/-- `getTokenFromCache` (src/oauth.mjs lines 72-90) as a function of the
cache file's existence and content and of the current Unix time.
`JSON.parse` of malformed content throws (`.thrown`), an unusable record
yields `undefined`, a record whose `access_token` is truthy is returned
as-is — the `validateJwt(...)` condition is an un-awaited promise and
therefore always truthy — and the refresh branch would return the
`refreshAccessToken` promise. -/
def getTokenFromCache (cacheFileExists : Bool) (cacheContent : String) (now : Int) :
    CacheLoadResult :=
  if cacheFileExists then
    if cacheContent.length = 0 then .jsUndefined
    else
      match jsonParse cacheContent with
      | none => .thrown "SyntaxError: JSON.parse"
      | some json =>
        if jsTruthy json && jsTruthyOpt (jsGetField json "access_token") then
          if (validateJwt ((jsGetField json "access_token").getD .null) now).isTruthy then
            .record json
          else if jsTruthyOpt (jsGetField json "refresh_token") then
            .refreshCall ((jsGetField json "refresh_token").getD .null)
          else .jsUndefined
        else .jsUndefined
  else .jsUndefined

/-- `saveTokenToCache` (src/oauth.mjs lines 92-94): the cache file's new
content is `JSON.stringify(token)`. -/
def saveTokenToCache (token : JsValue) : String :=
  jsonStringify token

/-- The form body of the `refreshAccessToken` POST
(src/oauth.mjs line 61). -/
def refreshTokenRequestBody (client_id refresh_token : String) : String :=
  "grant_type=refresh_token&refresh_token=" ++ refresh_token ++ "&client_id=" ++ client_id

/-- A `TokenRecord` as the token endpoint returns it and as the cache
stores it. -/
structure TokenRecord where
  access_token : String
  token_type : String
  expires_in : Int
  refresh_token : String
deriving Repr, DecidableEq

/-- The JavaScript object for a `TokenRecord`. -/
def TokenRecord.toJs (t : TokenRecord) : JsValue :=
  .obj [("access_token", .str t.access_token), ("token_type", .str t.token_type),
        ("expires_in", .num t.expires_in), ("refresh_token", .str t.refresh_token)]

/-! ## src/oauth.mjs: the callback listener of `requestByNative` -/

/-- An incoming request on the local listener, reduced to what the
handler reads: whether `req.url` is non-empty, and the `state` and `code`
query parameters `nodeUrl.parse(req.url, true)` extracts (`none` models a
missing parameter; repeated parameters are outside the model). -/
structure CallbackRequest where
  hasUrl : Bool
  state : Option String
  code : Option String

/-- What one handler invocation (src/oauth.mjs lines 139-156) does: end
the response without touching the pending promise, or end it with the
success page and resolve the promise with the callback code. -/
inductive HandlerStep where
  | ended
  | resolved (code : String)
deriving Repr, DecidableEq

/-- The response the handler sends for a step; `rsp.end()` sends an empty
200, `rsp.end('oauth success!')` a 200 with the success body. -/
structure CallbackResponse where
  status : Nat
  body : String
deriving Repr, DecidableEq

/-- The listener's request handler (src/oauth.mjs lines 139-156):
an empty `req.url` is logged and ended; a `state` that is not strictly
equal to the attempt's `state` is ended; a falsy `code` is ended; 
otherwise the promise is resolved with the code as extracted. -/
def handleCallbackRequest (authState : String) (req : CallbackRequest) : HandlerStep :=
  if !req.hasUrl then .ended
  else if req.state ≠ some authState then .ended
  else
    match req.code with
    | none => .ended
    | some code => if code = "" then .ended else .resolved code

/-- The response sent for a handler step. -/
def handlerResponse : HandlerStep → CallbackResponse
  | .ended => ⟨200, ""⟩
  | .resolved _ => ⟨200, "oauth success!"⟩

/-- The value `codePromise` settles to over a sequence of callback
requests: a JavaScript promise keeps its first resolution, and
`requestByNative` closes the listener as soon as the awaited promise
yields, so the first resolving request decides the code. -/
def resolveCallbacks (authState : String) : List CallbackRequest → Option String
  | [] => none
  | req :: rest =>
    match handleCallbackRequest authState req with
    | .resolved code => some code
    | .ended => resolveCallbacks authState rest

/-! ## src/oauth.mjs: the authorization-code token exchange -/

/-- The form body of the authorization-code POST
(src/oauth.mjs lines 165-168). -/
def authCodeExchangeBody (client_id code code_verifier : String) : String :=
  "grant_type=authorization_code" ++ "&client_id=" ++ client_id ++ "&code=" ++ code
    ++ "&code_verifier=" ++ code_verifier

/-- The status check after the exchange (src/oauth.mjs lines 179-182):
`if (rsp.status != 200) throw new Error(rsp.statusText)`. -/
def tokenExchangeOutcome (status : Nat) (statusText : String) : Except String Unit :=
  if status ≠ 200 then .error statusText else .ok ()

/-- How `requestByNative` (src/oauth.mjs lines 114-119) routes on the
cache lookup: a thrown cache error propagates, a defined result — the
cached record or the refresh promise — is returned at once, and only
`undefined` reaches the interactive browser flow. -/
inductive AcquireRoute where
  | raised (message : String)
  | returnCached (json : JsValue)
  | returnRefreshPromise (refresh_token : JsValue)
  | interactiveFlow
deriving Repr, BEq

/-- The route `requestByNative` takes, as a function of the cache state. -/
def requestByNativeRoute (cacheFileExists : Bool) (cacheContent : String) (now : Int) :
    AcquireRoute :=
  match getTokenFromCache cacheFileExists cacheContent now with
  | .thrown m => .raised m
  | .jsUndefined => .interactiveFlow
  | .record json => .returnCached json
  | .refreshCall rt => .returnRefreshPromise rt

/-! ## src/unnamed/part_000: the generic ESI client -/

/-- The options object accepted by the `ESIClient` constructor; every
field may be absent (`undefined`). -/
structure ESIClientOptions where
  baseURL : Option String
  version : Option String
  language : Option String
  token : Option String
  datasource : Option String

/-- The `this.options` record the constructor builds. -/
structure ESIClientConfig where
  baseURL : String
  version : String
  token : Option String
  language : String
  datasource : String
deriving Repr, DecidableEq

/-- The JavaScript idiom `x ? x : dflt` on an optional string: an absent
or empty (falsy) string selects the default. -/
def jsStringOr (v : Option String) (dflt : String) : String :=
  match v with
  | some s => if s = "" then dflt else s
  | none => dflt

/-- The `ESIClient` constructor (src/unnamed/part_000 lines 223-236):
`null == options` replaces a missing options object by `{}`, the string
options fall back to their defaults, the token is taken as given, and
`datasource` is assigned the constant `'tranquility'`, whatever the
options carry. -/
def esiClientInit (options : Option ESIClientOptions) : ESIClientConfig :=
  let opts := match options with
    | some o => o
    | none => ⟨none, none, none, none, none⟩
  { baseURL := jsStringOr opts.baseURL "https://esi.evetech.net"
    version := jsStringOr opts.version "latest"
    token := opts.token
    language := jsStringOr opts.language "zh"
    datasource := "tranquility" }

/-- The caller-supplied entries appended after `datasource` by
`ESIClient.request` (src/unnamed/part_000 lines 263-269): falsy values
are skipped, the rest are string-coerced by `URLSearchParams.append`. -/
def callerQueryParams (initParams : Option (List (String × JsValue))) :
    List (String × String) :=
  match initParams with
  | none => []
  | some entries =>
    (entries.filter (fun kv => jsTruthy kv.2)).map (fun kv => (kv.1, jsToDisplayString kv.2))

/-- The search-parameter list `ESIClient.request` builds
(src/unnamed/part_000 lines 261-269): `datasource` is appended first,
then the caller's truthy parameters. -/
def buildQueryParams (datasource : String) (initParams : Option (List (String × JsValue))) :
    List (String × String) :=
  [("datasource", datasource)] ++ callerQueryParams initParams

/-- Uppercase hexadecimal digit, as percent-encoding emits. -/
def urlHexDigit (d : Nat) : Char :=
  if d < 10 then Char.ofNat (48 + d) else Char.ofNat (55 + d)

/-- Characters `application/x-www-form-urlencoded` serialization leaves
unencoded. -/
def urlFormSafeChar (c : Char) : Bool :=
  ('A' ≤ c && c ≤ 'Z') || ('a' ≤ c && c ≤ 'z') || ('0' ≤ c && c ≤ '9')
    || c == '*' || c == '-' || c == '.' || c == '_'

/-- Percent-encode one character for `URLSearchParams.toString`: safe
characters pass through, a space becomes `+`, everything else becomes
percent-escaped UTF-8 bytes. -/
def urlFormEncodeChar (c : Char) : List Char :=
  if urlFormSafeChar c then [c]
  else if c = ' ' then ['+']
  else (utf8EncodeChar c).flatMap (fun b => ['%', urlHexDigit (b / 16), urlHexDigit (b % 16)])

/-- Percent-encode a string for `URLSearchParams.toString`. -/
def urlFormEncode (s : String) : String :=
  String.mk (s.data.flatMap urlFormEncodeChar)

/-- `URLSearchParams.toString`: `key=value` pairs joined by `&`. -/
def queryStringOfParams : List (String × String) → String
  | [] => ""
  | [kv] => urlFormEncode kv.1 ++ "=" ++ urlFormEncode kv.2
  | kv :: kv2 :: rest =>
    urlFormEncode kv.1 ++ "=" ++ urlFormEncode kv.2 ++ "&" ++ queryStringOfParams (kv2 :: rest)

/-- The exact content type that makes `ESIClient.request` parse the body
as JSON (src/unnamed/part_000 lines 283 and 289). -/
def esiJsonContentType : String := "application/json; charset=UTF-8"

/-- `rsp.ok` of the fetch response: status in the 2xx range. -/
def esiResponseOk (status : Nat) : Bool :=
  200 ≤ status && status < 300

/-- A response body after the parse-or-text step. -/
inductive EsiResponseBody where
  | json (v : JsValue)
  | text (s : String)
deriving Repr, BEq

/-- How `ESIClient.request` can fail on a response:
`rsp.json()` rejecting on an unparsable body, or the explicit
`throw new Error(...)` on a non-ok status. -/
inductive EsiRequestError where
  | bodyParseFailed
  | httpError (message : String)
deriving Repr, BEq

/-- `rspBody.error` as a thrown message: the `error` property of a parsed
JSON body, string-coerced (a missing property gives `new Error(undefined)`,
whose message is empty); a text body has no `error` property. -/
def esiErrorFieldMessage : EsiResponseBody → String
  | .json v =>
    match jsGetField v "error" with
    | some fieldVal => jsToDisplayString fieldVal
    | none => ""
  | .text _ => ""

/-- `new Error(rspBody)` on the non-JSON branch string-coerces the body. -/
def esiRawBodyMessage : EsiResponseBody → String
  | .json v => jsToDisplayString v
  | .text s => s

/-- The parse-or-text step of `ESIClient.request` (src/unnamed/part_000
lines 282-287): the body text goes through `rsp.json()` exactly when the
content-type header is exactly `application/json; charset=UTF-8`,
otherwise through `rsp.text()`.  The HTTP status is not consulted. -/
def esiParseResponseBody (contentType : Option String) (bodyText : String) :
    Except EsiRequestError EsiResponseBody :=
  if contentType = some esiJsonContentType then
    match jsonParse bodyText with
    | some v => .ok (.json v)
    | none => .error .bodyParseFailed
  else .ok (.text bodyText)

/-- The whole response handling of `ESIClient.request`
(src/unnamed/part_000 lines 282-296): parse or keep the body text by
content type, then, if the status is not ok, throw with the `error` field
(JSON content type) or the coerced body (otherwise). -/
def esiHandleResponse (status : Nat) (contentType : Option String) (bodyText : String) :
    Except EsiRequestError EsiResponseBody :=
  let parsed : Except EsiRequestError EsiResponseBody :=
    if contentType = some esiJsonContentType then
      match jsonParse bodyText with
      | some v => .ok (.json v)
      | none => .error .bodyParseFailed
    else .ok (.text bodyText)
  match parsed with
  | .error e => .error e
  | .ok rspBody =>
    if esiResponseOk status then .ok rspBody
    else if contentType = some esiJsonContentType then
      .error (.httpError (esiErrorFieldMessage rspBody))
    else
      .error (.httpError (esiRawBodyMessage rspBody))

/-- A remainder that cannot extend a JSON number: empty, or headed by a
character that is neither a digit nor `.`, `e`, `E`.  Every delimiter the
object grammar puts after a number qualifies. -/
def jsonNumBoundary : List Char → Bool
  | [] => true
  | c :: _ => !(jsonIsDigit c || c == '.' || c == 'e' || c == 'E')

/-- A well-formed but expired access token: its payload decodes to the
claims object with `exp = 1` (one second past the Unix epoch). -/
def expiredJwtSample : String :=
  "eyJhbGciOiJub25lIn0." ++ base64urlEncode (utf8Encode "\x7b\"exp\":1\x7d") ++ ".sig"

/-- A cached record holding the expired access token and a refresh token:
the exact configuration the refresh branch is meant for. -/
def staleTokenSample : JsValue :=
  .obj [("access_token", .str expiredJwtSample), ("token_type", .str "Bearer"),
        ("expires_in", .num 1199), ("refresh_token", .str "refresh-me")]

/-! ## Facts about the embedding -/

/-- Unfolding helper: the characters of a string built from a list. -/
theorem string_mk_data (cs : List Char) : (String.mk cs).data = cs := rfl

/-- `List.getD` stays away from a character neither in the list nor equal
to the default. -/
theorem list_getD_ne {l : List Char} {d x : Char} (hd : d ≠ x)
    (hl : ∀ c ∈ l, c ≠ x) : ∀ n : Nat, l.getD n d ≠ x := by
  induction l with
  | nil => intro n; simpa [List.getD]
  | cons c rest ih =>
    intro n
    cases n with
    | zero => simpa [List.getD] using hl c (by simp)
    | succ m => simpa [List.getD] using ih (fun c2 hc2 => hl c2 (by simp [hc2])) m

/-- No base64url digit is the padding character. -/
theorem base64urlDigit_ne_pad (n : Nat) : base64urlDigit n ≠ '=' :=
  list_getD_ne (by decide) (by decide) n

/-- Boolean form of `base64urlDigit_ne_pad`. -/
theorem pad_beq_base64urlDigit (n : Nat) : ('=' == base64urlDigit n) = false :=
  beq_eq_false_iff_ne.mpr (Ne.symm (base64urlDigit_ne_pad n))

/-- Base64url character output never contains the padding character. -/
theorem base64urlChunkChars_no_pad :
    ∀ bytes : List Nat, '=' ∉ base64urlChunkChars bytes
  | b1 :: b2 :: b3 :: rest => by
    simp [base64urlChunkChars]
    exact ⟨fun h => base64urlDigit_ne_pad _ h.symm, fun h => base64urlDigit_ne_pad _ h.symm,
      fun h => base64urlDigit_ne_pad _ h.symm, fun h => base64urlDigit_ne_pad _ h.symm,
      base64urlChunkChars_no_pad rest⟩
  | [b1, b2] => by
    simp [base64urlChunkChars]
    exact ⟨fun h => base64urlDigit_ne_pad _ h.symm, fun h => base64urlDigit_ne_pad _ h.symm,
      fun h => base64urlDigit_ne_pad _ h.symm⟩
  | [b1] => by
    simp [base64urlChunkChars]
    exact ⟨fun h => base64urlDigit_ne_pad _ h.symm, fun h => base64urlDigit_ne_pad _ h.symm⟩
  | [] => by simp [base64urlChunkChars]

/-- A character not in a list makes `contains` false. -/
theorem list_contains_eq_false {l : List Char} {c : Char} (h : c ∉ l) :
    l.contains c = false := by
  rw [Bool.eq_false_iff]
  exact fun ht => h (List.elem_iff.mp ht)

/-- The character for a decimal digit is a digit character. -/
theorem digitChar_isDigit (d : Nat) (h : d < 10) :
    jsonIsDigit (Char.ofNat (48 + d)) = true := by
  interval_cases d <;> decide

/-- The character for a decimal digit carries its value. -/
theorem digitChar_toNat (d : Nat) (h : d < 10) :
    (Char.ofNat (48 + d)).toNat = 48 + d := by
  interval_cases d <;> decide

/-- Fuel does not matter once it exceeds the number. -/
theorem natDecCharsAux_congr : ∀ (n f1 f2 : Nat), n < f1 → n < f2 →
    natDecCharsAux f1 n = natDecCharsAux f2 n := by
  intro n
  induction n using Nat.strong_induction_on with
  | _ n ih =>
    intro f1 f2 h1 h2
    match f1, f2 with
    | g1 + 1, g2 + 1 =>
      simp only [natDecCharsAux]
      by_cases h : n < 10
      · simp [h]
      · simp only [if_neg h]
        rw [ih (n / 10) (by omega) g1 g2 (by omega) (by omega)]

/-- The recurrence `natDecChars` satisfies. -/
theorem natDecChars_eq_spec (n : Nat) :
    natDecChars n
      = if n < 10 then [Char.ofNat (48 + n)]
        else natDecChars (n / 10) ++ [Char.ofNat (48 + n % 10)] := by
  show natDecCharsAux (n + 1) n = _
  simp only [natDecCharsAux]
  by_cases h : n < 10
  · simp [h]
  · simp only [if_neg h]
    rw [natDecCharsAux_congr (n / 10) n (n / 10 + 1) (by omega) (by omega)]
    rfl

/-- A decimal rendering is never empty. -/
theorem natDecChars_ne_nil (n : Nat) : natDecChars n ≠ [] := by
  rw [natDecChars_eq_spec]
  split <;> simp

/-- Every character of a decimal rendering is a digit. -/
theorem natDecChars_digits (n : Nat) : ∀ c ∈ natDecChars n, jsonIsDigit c = true := by
  induction n using Nat.strong_induction_on with
  | _ n ih =>
    intro c hc
    rw [natDecChars_eq_spec] at hc
    by_cases h : n < 10
    · rw [if_pos h, List.mem_singleton] at hc
      subst hc
      exact digitChar_isDigit n h
    · rw [if_neg h, List.mem_append] at hc
      rcases hc with hc | hc
      · exact ih (n / 10) (Nat.div_lt_self (by omega) (by omega)) c hc
      · rw [List.mem_singleton] at hc
        subst hc
        exact digitChar_isDigit _ (Nat.mod_lt _ (by omega))

/-- A decimal rendering starts with a digit character. -/
theorem natDecChars_cons (n : Nat) :
    ∃ c t, natDecChars n = c :: t ∧ jsonIsDigit c = true := by
  cases h : natDecChars n with
  | nil => exact absurd h (natDecChars_ne_nil n)
  | cons c t => exact ⟨c, t, rfl, natDecChars_digits n c (h ▸ List.mem_cons_self c t)⟩

/-- Folding one more digit multiplies the accumulated value by ten. -/
theorem jsonDigitsVal_append (ds : List Char) (c : Char) :
    jsonDigitsVal (ds ++ [c]) = jsonDigitsVal ds * 10 + (c.toNat - 48) := by
  simp [jsonDigitsVal, List.foldl_append]

/-- The numeric value of a decimal rendering is the number itself. -/
theorem jsonDigitsVal_natDecChars (n : Nat) : jsonDigitsVal (natDecChars n) = n := by
  induction n using Nat.strong_induction_on with
  | _ n ih =>
    rw [natDecChars_eq_spec]
    by_cases h : n < 10
    · rw [if_pos h]
      have ht := digitChar_toNat n h
      simp [jsonDigitsVal]
      omega
    · rw [if_neg h, jsonDigitsVal_append, ih (n / 10) (Nat.div_lt_self (by omega) (by omega)),
        digitChar_toNat _ (Nat.mod_lt _ (by omega))]
      omega

/-- `jsonTakeDigits` consumes nothing at a number boundary. -/
theorem jsonTakeDigits_boundary {cs : List Char} (h : jsonNumBoundary cs = true) :
    jsonTakeDigits cs = ([], cs) := by
  cases cs with
  | nil => rfl
  | cons c t =>
    simp only [jsonNumBoundary, Bool.not_eq_true', Bool.or_eq_false_iff] at h
    simp [jsonTakeDigits, h.1.1.1]

/-- `jsonTakeDigits` consumes exactly a leading digit run. -/
theorem jsonTakeDigits_run (ds : List Char) (hds : ∀ c ∈ ds, jsonIsDigit c = true)
    {rest : List Char} (hrest : jsonTakeDigits rest = ([], rest)) :
    jsonTakeDigits (ds ++ rest) = (ds, rest) := by
  induction ds with
  | nil => simpa using hrest
  | cons c t ih =>
    have hc : jsonIsDigit c = true := hds c (by simp)
    have ht := ih (fun x hx => hds x (by simp [hx]))
    simp [jsonTakeDigits, hc, ht]

/-- A digit character is not one of the characters a number boundary or a
sign position could be confused with. -/
theorem digit_char_facts {c : Char} (h : jsonIsDigit c = true) :
    c ≠ '-' ∧ c ≠ '.' ∧ c ≠ 'e' ∧ c ≠ 'E' := by
  refine ⟨?_, ?_, ?_, ?_⟩ <;> (rintro rfl; simp [jsonIsDigit] at h)

/-- The heads a number boundary excludes. -/
theorem jsonNumBoundary_head {c : Char} {t : List Char}
    (h : jsonNumBoundary (c :: t) = true) :
    jsonIsDigit c = false ∧ c ≠ '.' ∧ c ≠ 'e' ∧ c ≠ 'E' := by
  simp only [jsonNumBoundary, Bool.not_eq_true', Bool.or_eq_false_iff,
    beq_eq_false_iff_ne] at h
  exact ⟨h.1.1.1, h.1.1.2, h.1.2, h.2⟩

/-- Parsing a rendered integer recovers it whenever the remainder sits
at a number boundary. -/
theorem jsonParseNumber_intDecChars (i : Int) {rest : List Char}
    (hrest : jsonNumBoundary rest = true) :
    jsonParseNumber (intDecChars i ++ rest) = some (i, rest) := by
  have hstop : jsonTakeDigits rest = ([], rest) := jsonTakeDigits_boundary hrest
  by_cases hneg : i < 0
  · have harg : intDecChars i ++ rest = '-' :: (natDecChars i.natAbs ++ rest) := by
      simp [intDecChars, hneg]
    rw [harg]
    simp only [jsonParseNumber]
    rw [jsonTakeDigits_run _ (natDecChars_digits _) hstop]
    simp only [List.isEmpty_iff]
    rw [if_neg (by simpa using natDecChars_ne_nil i.natAbs)]
    cases rest with
    | nil =>
      simp [jsonDigitsVal_natDecChars, Int.natCast_natAbs, abs_of_neg hneg]
    | cons c t =>
      obtain ⟨hd, hdot, he, hE⟩ := jsonNumBoundary_head hrest
      simp [hdot, he, hE, jsonDigitsVal_natDecChars, Int.natCast_natAbs, abs_of_neg hneg]
  · obtain ⟨c0, t0, h0, hc0⟩ := natDecChars_cons i.natAbs
    have hnm : c0 ≠ '-' := (digit_char_facts hc0).1
    have harg : intDecChars i ++ rest = c0 :: (t0 ++ rest) := by
      simp [intDecChars, hneg, h0]
    have hrun : jsonTakeDigits (c0 :: (t0 ++ rest)) = (c0 :: t0, rest) := by
      have := jsonTakeDigits_run (natDecChars i.natAbs) (natDecChars_digits _) hstop
      rwa [h0, List.cons_append] at this
    have hval : jsonDigitsVal (c0 :: t0) = i.natAbs := by
      have := jsonDigitsVal_natDecChars i.natAbs
      rwa [h0] at this
    rw [harg]
    simp only [jsonParseNumber]
    cases rest with
    | nil =>
      rw [List.append_nil] at hrun
      simp [hnm, hrun, hval, Int.natCast_natAbs, abs_of_nonneg (not_lt.mp hneg)]
    | cons c t =>
      obtain ⟨hd, hdot, he, hE⟩ := jsonNumBoundary_head hrest
      simp [hnm, hrun, hval, hdot, he, hE, Int.natCast_natAbs,
        abs_of_nonneg (not_lt.mp hneg)]

/-- A hex digit character carries its value. -/
theorem jsonHexVal_hexDigit (d : Nat) (h : d < 16) :
    jsonHexVal (jsonHexDigit d) = some d := by
  interval_cases d <;> decide

theorem jsonParseStringBody_uescape (acc rest : List Char) (d1 d2 : Nat)
    (h1 : d1 < 16) (h2 : d2 < 16) :
    jsonParseStringBody acc ('\\' :: 'u' :: '0' :: '0' :: jsonHexDigit d1 :: jsonHexDigit d2 :: rest)
      = jsonParseStringBody (Char.ofNat (d1 * 16 + d2) :: acc) rest := by
  have hz : jsonHexVal '0' = some 0 := by decide
  conv =>
    lhs
    rw [jsonParseStringBody.eq_def]
  simp [hz, jsonHexVal_hexDigit _ h1, jsonHexVal_hexDigit _ h2]

theorem jsonParseStringBody_escape (c : Char) (acc rest : List Char) :
    jsonParseStringBody acc (jsonEscapeChar c ++ rest)
      = jsonParseStringBody (c :: acc) rest := by
  by_cases h1 : c = '"'
  · subst h1
    conv =>
      lhs
      rw [show jsonEscapeChar '"' ++ rest = '\\' :: '"' :: rest from rfl,
        jsonParseStringBody.eq_def]
    simp [jsonShortEscape]
  by_cases h2 : c = '\\'
  · subst h2
    conv =>
      lhs
      rw [show jsonEscapeChar '\\' ++ rest = '\\' :: '\\' :: rest from rfl,
        jsonParseStringBody.eq_def]
    simp [jsonShortEscape]
  by_cases h3 : c = '\x08'
  · subst h3
    conv =>
      lhs
      rw [show jsonEscapeChar '\x08' ++ rest = '\\' :: 'b' :: rest from rfl,
        jsonParseStringBody.eq_def]
    simp [jsonShortEscape]
  by_cases h4 : c = '\x09'
  · subst h4
    conv =>
      lhs
      rw [show jsonEscapeChar '\x09' ++ rest = '\\' :: 't' :: rest from rfl,
        jsonParseStringBody.eq_def]
    simp [jsonShortEscape]
  by_cases h5 : c = '\x0a'
  · subst h5
    conv =>
      lhs
      rw [show jsonEscapeChar '\x0a' ++ rest = '\\' :: 'n' :: rest from rfl,
        jsonParseStringBody.eq_def]
    simp [jsonShortEscape]
  by_cases h6 : c = '\x0c'
  · subst h6
    conv =>
      lhs
      rw [show jsonEscapeChar '\x0c' ++ rest = '\\' :: 'f' :: rest from rfl,
        jsonParseStringBody.eq_def]
    simp [jsonShortEscape]
  by_cases h7 : c = '\x0d'
  · subst h7
    conv =>
      lhs
      rw [show jsonEscapeChar '\x0d' ++ rest = '\\' :: 'r' :: rest from rfl,
        jsonParseStringBody.eq_def]
    simp [jsonShortEscape]
  by_cases h8 : c.toNat < 32
  · have hesc : jsonEscapeChar c
        = ['\\', 'u', '0', '0', jsonHexDigit (c.toNat / 16), jsonHexDigit (c.toNat % 16)] := by
      simp [jsonEscapeChar, h1, h2, h3, h4, h5, h6, h7, h8]
    rw [hesc]
    rw [show ['\\', 'u', '0', '0', jsonHexDigit (c.toNat / 16), jsonHexDigit (c.toNat % 16)] ++ rest
        = '\\' :: 'u' :: '0' :: '0' :: jsonHexDigit (c.toNat / 16) :: jsonHexDigit (c.toNat % 16) :: rest
      from rfl]
    rw [jsonParseStringBody_uescape acc rest _ _ (by omega) (by omega)]
    have hchar : Char.ofNat (c.toNat / 16 * 16 + c.toNat % 16) = c := by
      have harith : c.toNat / 16 * 16 + c.toNat % 16 = c.toNat := by omega
      rw [harith, Char.ofNat_toNat]
    rw [hchar]
  · have hesc : jsonEscapeChar c = [c] := by
      simp [jsonEscapeChar, h1, h2, h3, h4, h5, h6, h7, h8]
    rw [hesc, List.singleton_append]
    conv =>
      lhs
      rw [jsonParseStringBody.eq_def]
    simp [h1, h2, h8]

theorem jsonParseStringBody_quoted (cs : List Char) : ∀ (acc rest : List Char),
    jsonParseStringBody acc (cs.flatMap jsonEscapeChar ++ '"' :: rest)
      = some (String.mk (acc.reverse ++ cs), rest) := by
  induction cs with
  | nil =>
    intro acc rest
    conv =>
      lhs
      rw [List.flatMap_nil, List.nil_append, jsonParseStringBody.eq_def]
    simp
  | cons c t ih =>
    intro acc rest
    rw [List.flatMap_cons, List.append_assoc, jsonParseStringBody_escape, ih]
    simp

/-- Rebuilding a string from its characters is the identity. -/
theorem string_mk_of_data (s : String) : String.mk s.data = s := rfl

theorem jsonParseValue_quote (f : Nat) (s : String) (rest : List Char) :
    jsonParseValue (f + 1) (jsonQuote s ++ rest) = some (.str s, rest) := by
  have hq : jsonQuote s ++ rest = '"' :: (s.data.flatMap jsonEscapeChar ++ ('"' :: rest)) := by
    simp [jsonQuote]
  rw [hq]
  simp [jsonParseValue, jsonSkipWs, jsonIsWs, jsonParseStringBody_quoted, string_mk_of_data]

theorem digit_head_facts {c : Char} (h : jsonIsDigit c = true) :
    c ≠ 'n' ∧ c ≠ 't' ∧ c ≠ 'f' ∧ c ≠ '"' ∧ c ≠ '[' ∧ c ≠ '{' ∧ jsonIsWs c = false := by
  have hsp : c ≠ ' ' := by rintro rfl; simp [jsonIsDigit] at h
  have htb : c ≠ '\x09' := by rintro rfl; simp [jsonIsDigit] at h
  have hlf : c ≠ '\x0a' := by rintro rfl; simp [jsonIsDigit] at h
  have hcr : c ≠ '\x0d' := by rintro rfl; simp [jsonIsDigit] at h
  refine ⟨?_, ?_, ?_, ?_, ?_, ?_, by simp [jsonIsWs, hsp, htb, hlf, hcr]⟩
    <;> (rintro rfl; simp [jsonIsDigit] at h)

theorem jsonParseValue_int (f : Nat) (i : Int) {rest : List Char}
    (hrest : jsonNumBoundary rest = true) :
    jsonParseValue (f + 1) (intDecChars i ++ rest) = some (.num i, rest) := by
  have hnum := jsonParseNumber_intDecChars i hrest
  by_cases hneg : i < 0
  · have harg : intDecChars i ++ rest = '-' :: (natDecChars i.natAbs ++ rest) := by
      simp [intDecChars, hneg]
    rw [harg] at hnum ⊢
    simp [jsonParseValue, jsonSkipWs, jsonIsWs, hnum]
  · obtain ⟨c0, t0, h0, hc0⟩ := natDecChars_cons i.natAbs
    obtain ⟨hn, ht, hf, hq, hbk, hbc, hws⟩ := digit_head_facts hc0
    have harg : intDecChars i ++ rest = c0 :: (t0 ++ rest) := by
      simp [intDecChars, hneg, h0]
    rw [harg] at hnum ⊢
    simp [jsonParseValue, jsonSkipWs, hws, hn, ht, hf, hq, hbk, hbc, hnum]

/-- Rendered strings never start with whitespace. -/
theorem jsonSkipWs_quote (s : String) (z : List Char) :
    jsonSkipWs (jsonQuote s ++ z) = jsonQuote s ++ z := by
  simp [jsonQuote, jsonSkipWs, jsonIsWs]

theorem jsonQuote_append (s : String) (z : List Char) :
    jsonQuote s ++ z = '"' :: (s.data.flatMap jsonEscapeChar ++ ('"' :: z)) := by
  simp [jsonQuote]

theorem jsonParseMembers_last (f : Nat) (key : String) (v : JsValue)
    (vchars z : List Char)
    (hv : jsonParseValue (f + 1) (vchars ++ '}' :: z) = some (v, '}' :: z)) :
    jsonParseMembers (f + 2) (jsonQuote key ++ ':' :: (vchars ++ '}' :: z))
      = some ([(key, v)], z) := by
  rw [jsonQuote_append]
  simp [jsonParseMembers, jsonParseStringBody_quoted, jsonSkipWs, jsonIsWs, hv,
    string_mk_of_data]

theorem jsonParseMembers_cons (f : Nat) (key : String) (v : JsValue)
    (vchars next z : List Char) (fs : List (String × JsValue))
    (hv : jsonParseValue (f + 1) (vchars ++ ',' :: next) = some (v, ',' :: next))
    (hnext : jsonParseMembers (f + 1) next = some (fs, z)) :
    jsonParseMembers (f + 2) (jsonQuote key ++ ':' :: (vchars ++ ',' :: next))
      = some ((key, v) :: fs, z) := by
  rw [jsonQuote_append, jsonParseMembers]
  simp [jsonParseStringBody_quoted, string_mk_of_data, jsonSkipWs, jsonIsWs, hv, hnext]

/-- The length of a rebuilt string. -/
theorem string_mk_length (cs : List Char) : (String.mk cs).length = cs.length := rfl

theorem comma_boundary (next : List Char) : jsonNumBoundary (',' :: next) = true := rfl

theorem jsonParseValue_tokenRecord (a tt rt : String) (e : Int) (g : Nat) :
    jsonParseValue (g + 6) (jsonStringifyChars (TokenRecord.toJs ⟨a, tt, e, rt⟩))
      = some (TokenRecord.toJs ⟨a, tt, e, rt⟩, []) := by
  have hm4 : jsonParseMembers (g + 2)
      (jsonQuote "refresh_token" ++ ':' :: (jsonQuote rt ++ '}' :: []))
      = some ([("refresh_token", JsValue.str rt)], []) :=
    jsonParseMembers_last g _ _ _ _ (jsonParseValue_quote g rt ('}' :: []))
  have hm3 : jsonParseMembers (g + 3)
      (jsonQuote "expires_in" ++ ':' :: (intDecChars e
        ++ ',' :: (jsonQuote "refresh_token" ++ ':' :: (jsonQuote rt ++ '}' :: []))))
      = some ([("expires_in", JsValue.num e), ("refresh_token", JsValue.str rt)], []) :=
    jsonParseMembers_cons (g + 1) _ _ _ _ _ _
      (jsonParseValue_int (g + 1) e (comma_boundary _)) hm4
  have hm2 : jsonParseMembers (g + 4)
      (jsonQuote "token_type" ++ ':' :: (jsonQuote tt
        ++ ',' :: (jsonQuote "expires_in" ++ ':' :: (intDecChars e
        ++ ',' :: (jsonQuote "refresh_token" ++ ':' :: (jsonQuote rt ++ '}' :: []))))))
      = some ([("token_type", JsValue.str tt), ("expires_in", JsValue.num e),
          ("refresh_token", JsValue.str rt)], []) :=
    jsonParseMembers_cons (g + 2) _ _ _ _ _ _
      (jsonParseValue_quote (g + 2) tt _) hm3
  have hm1 : jsonParseMembers (g + 5)
      (jsonQuote "access_token" ++ ':' :: (jsonQuote a
        ++ ',' :: (jsonQuote "token_type" ++ ':' :: (jsonQuote tt
        ++ ',' :: (jsonQuote "expires_in" ++ ':' :: (intDecChars e
        ++ ',' :: (jsonQuote "refresh_token" ++ ':' :: (jsonQuote rt ++ '}' :: []))))))))
      = some ([("access_token", JsValue.str a), ("token_type", JsValue.str tt),
          ("expires_in", JsValue.num e), ("refresh_token", JsValue.str rt)], []) :=
    jsonParseMembers_cons (g + 3) _ _ _ _ _ _
      (jsonParseValue_quote (g + 3) a _) hm2
  have hchars : jsonStringifyChars (TokenRecord.toJs ⟨a, tt, e, rt⟩)
      = '{' :: (jsonQuote "access_token" ++ ':' :: (jsonQuote a
        ++ ',' :: (jsonQuote "token_type" ++ ':' :: (jsonQuote tt
        ++ ',' :: (jsonQuote "expires_in" ++ ':' :: (intDecChars e
        ++ ',' :: (jsonQuote "refresh_token" ++ ':' :: (jsonQuote rt ++ '}' :: [])))))))) := by
    simp [TokenRecord.toJs, jsonStringifyChars, jsonStringifyFields]
  rw [hchars, jsonParseValue]
  rw [jsonQuote_append] at hm1 ⊢
  generalize hkb : "access_token".data.flatMap jsonEscapeChar = kb at hm1 ⊢
  simp [jsonSkipWs, jsonIsWs, hm1, TokenRecord.toJs]

theorem jsonParse_tokenRecord (a tt rt : String) (e : Int) :
    jsonParse (jsonStringify (TokenRecord.toJs ⟨a, tt, e, rt⟩))
      = some (TokenRecord.toJs ⟨a, tt, e, rt⟩) := by
  have hlen : 5 ≤ (jsonStringifyChars (TokenRecord.toJs ⟨a, tt, e, rt⟩)).length := by
    simp [TokenRecord.toJs, jsonStringifyChars, jsonStringifyFields, jsonQuote]
    omega
  rw [jsonParse, jsonStringify, string_mk_data, string_mk_length]
  rw [show (jsonStringifyChars (TokenRecord.toJs ⟨a, tt, e, rt⟩)).length + 1
      = ((jsonStringifyChars (TokenRecord.toJs ⟨a, tt, e, rt⟩)).length - 5) + 6 from by omega]
  rw [jsonParseValue_tokenRecord]
  simp [jsonSkipWs]

/-! ## The claims -/

/-- C5: for every verifier produced by `generateCodeVerifier`, the
challenge produced by `generateCodeChallenge` is exactly
base64url(SHA-256(verifier)) and contains no `=` padding character. -/
theorem pkce_challenge_is_unpadded_b64url_sha256 (randomChars : String) :
    generateCodeChallenge (generateCodeVerifier randomChars)
        = base64urlEncode (sha256 (utf8Encode (generateCodeVerifier randomChars)))
      ∧ ((generateCodeChallenge (generateCodeVerifier randomChars)).data.contains '=')
          = false :=
  ⟨rfl, list_contains_eq_false (base64urlChunkChars_no_pad _)⟩

/-- C3: a callback request whose `state` differs from the state generated
for the attempt is ended without resolving the pending authorization,
whatever its `code`, and the listener keeps waiting: the pending promise
settles exactly as it would on the remaining requests. -/
theorem callback_state_mismatch_never_resolves (authState : String)
    (req : CallbackRequest) (pending : List CallbackRequest)
    (hstate : req.state ≠ some authState) :
    handleCallbackRequest authState req = .ended
      ∧ resolveCallbacks authState (req :: pending) = resolveCallbacks authState pending := by
  have hend : handleCallbackRequest authState req = .ended := by
    cases hu : req.hasUrl with
    | false => simp [handleCallbackRequest, hu]
    | true => simp [handleCallbackRequest, hu, hstate]
  exact ⟨hend, by simp [resolveCallbacks, hend]⟩

/-- Closed instance of `callback_state_mismatch_never_resolves`: a forged
state with a present code is dropped and leaves the promise pending. -/
theorem callback_state_mismatch_never_resolves_witness :
    handleCallbackRequest "abcDEF1234" ⟨true, some "evil", some "xyz"⟩ = .ended
      ∧ resolveCallbacks "abcDEF1234" [⟨true, some "evil", some "xyz"⟩]
          = resolveCallbacks "abcDEF1234" [] :=
  callback_state_mismatch_never_resolves "abcDEF1234" ⟨true, some "evil", some "xyz"⟩ []
    (by decide)

/-- C4: the first callback request with the generated `state` and a
non-empty `code` gets the 200 success response and resolves the pending
authorization with that exact code; requests after it do not change the
settled value (the listener is closed once the awaited promise yields). -/
theorem callback_first_valid_request_resolves (authState code : String)
    (req : CallbackRequest) (pre post : List CallbackRequest)
    (hpre : ∀ r ∈ pre, handleCallbackRequest authState r = .ended)
    (hurl : req.hasUrl = true) (hstate : req.state = some authState)
    (hcode : req.code = some code) (hne : code ≠ "") :
    handleCallbackRequest authState req = .resolved code
      ∧ handlerResponse (handleCallbackRequest authState req) = ⟨200, "oauth success!"⟩
      ∧ resolveCallbacks authState (pre ++ req :: post) = some code := by
  have hres : handleCallbackRequest authState req = .resolved code := by
    simp [handleCallbackRequest, hurl, hstate, hcode, hne]
  refine ⟨hres, by rw [hres]; rfl, ?_⟩
  induction pre with
  | nil => simp [resolveCallbacks, hres]
  | cons r rest ih =>
    have hr : handleCallbackRequest authState r = .ended := hpre r (by simp)
    rw [List.cons_append]
    rw [resolveCallbacks]
    rw [hr]
    exact ih (fun x hx => hpre x (by simp [hx]))

/-- Closed instance of `callback_first_valid_request_resolves`: after one
mismatched callback, the matching one (state abcDEF1234, code xyz)
resolves with "xyz", and a later matching callback with another code does
not change the settled value. -/
theorem callback_first_valid_request_resolves_witness :
    handleCallbackRequest "abcDEF1234" ⟨true, some "abcDEF1234", some "xyz"⟩
        = .resolved "xyz"
      ∧ handlerResponse (handleCallbackRequest "abcDEF1234" ⟨true, some "abcDEF1234", some "xyz"⟩)
          = ⟨200, "oauth success!"⟩
      ∧ resolveCallbacks "abcDEF1234"
          ([⟨true, some "stale", some "aaa"⟩]
            ++ ⟨true, some "abcDEF1234", some "xyz"⟩ :: [⟨true, some "abcDEF1234", some "late"⟩])
          = some "xyz" :=
  callback_first_valid_request_resolves "abcDEF1234" "xyz"
    ⟨true, some "abcDEF1234", some "xyz"⟩ [⟨true, some "stale", some "aaa"⟩]
    [⟨true, some "abcDEF1234", some "late"⟩]
    (by intro r hr; simp at hr; subst hr; decide) rfl rfl rfl (by decide)

/-- An empty-length string is the empty string. -/
theorem string_length_zero {s : String} (h : s.length = 0) : s = "" := by
  cases s with
  | mk data =>
    have hd : data = [] := List.length_eq_zero.mp h
    subst hd
    rfl

/-- C6 counterexample: 201 is a 2xx status, yet the exchange's status
check raises (it raises on everything but 200), so "for every 2xx
response it does not raise" is false at status 201. -/
theorem tokenExchange_raises_at_status_201 :
    (200 ≤ 201 ∧ 201 < 300) ∧ tokenExchangeOutcome 201 "Created" = .error "Created" :=
  ⟨⟨by omega, by omega⟩, rfl⟩

/-- C6 as amended: the authorization-code exchange POSTs the stated form
fields with the original PKCE verifier, and raises the response's status
text exactly when the status is not 200 — so every non-2xx raises, but so
do 2xx statuses other than 200. -/
theorem tokenExchange_body_and_status_check (client_id code randomChars statusText : String)
    (status : Nat) :
    authCodeExchangeBody client_id code (generateCodeVerifier randomChars)
        = "grant_type=authorization_code&client_id=" ++ client_id ++ "&code=" ++ code
          ++ "&code_verifier=" ++ generateCodeVerifier randomChars
      ∧ (tokenExchangeOutcome status statusText = .error statusText ↔ status ≠ 200)
      ∧ (tokenExchangeOutcome status statusText = .ok () ↔ status = 200) := by
  refine ⟨rfl, ?_, ?_⟩ <;> by_cases h : status = 200 <;> simp [tokenExchangeOutcome, h]

/-- C2 counterexample: cache content that is not valid JSON makes
`getTokenFromCache` raise (the `JSON.parse` exception propagates), which
is not the undefined "no cached token" result the claim requires. -/
theorem getTokenFromCache_invalid_json_raises :
    getTokenFromCache true "not json" 0 = .thrown "SyntaxError: JSON.parse"
      ∧ CacheLoadResult.thrown "SyntaxError: JSON.parse" ≠ .jsUndefined :=
  ⟨rfl, by simp⟩

/-- C2 as amended: content that parses as JSON without a truthy
access_token degrades to undefined, and so does an empty cache file, but
content that fails to parse raises out of `getTokenFromCache`. -/
theorem getTokenFromCache_corruption_behavior (content : String) (j : JsValue) (now : Int) :
    (jsonParse content = some j → jsTruthyOpt (jsGetField j "access_token") = false →
      getTokenFromCache true content now = .jsUndefined)
      ∧ (content ≠ "" → jsonParse content = none →
        getTokenFromCache true content now = .thrown "SyntaxError: JSON.parse")
      ∧ getTokenFromCache true "" now = .jsUndefined := by
  refine ⟨?_, ?_, rfl⟩
  · intro hp hft
    have hlen : content.length ≠ 0 := by
      intro h0
      rw [string_length_zero h0] at hp
      exact Option.noConfusion hp
    simp [getTokenFromCache, hlen, hp, hft]
  · intro hne hp
    have hlen : content.length ≠ 0 := by
      intro h0
      exact hne (string_length_zero h0)
    simp [getTokenFromCache, hlen, hp]

/-- C7: a non-2xx resource response raises with the parsed body's
`error` field as the message when the content type is exactly the
JSON/UTF-8 type (stated for bodies whose `error` field is a string),
and with the raw text body for any other content type. -/
theorem esiRequest_non2xx_error_message (status : Nat) (contentType : Option String)
    (body : String) (hnok : esiResponseOk status = false) :
    (∀ (v : JsValue) (m : String),
      contentType = some esiJsonContentType → jsonParse body = some v →
      jsGetField v "error" = some (.str m) →
      esiHandleResponse status contentType body = .error (.httpError m))
      ∧ (contentType ≠ some esiJsonContentType →
        esiHandleResponse status contentType body = .error (.httpError body)) := by
  constructor
  · intro v m hct hparse herr
    simp [esiHandleResponse, hct, hparse, hnok, esiErrorFieldMessage, herr,
      jsToDisplayString]
  · intro hct
    simp [esiHandleResponse, hct, hnok, esiRawBodyMessage]

/-- Closed instance of `esiRequest_non2xx_error_message`: a 404 JSON
response with error field "not found" raises exactly that message, and a
500 text response raises its body. -/
theorem esiRequest_non2xx_error_message_witness :
    esiHandleResponse 404 (some "application/json; charset=UTF-8")
        "\x7b\"error\":\"not found\"\x7d"
        = .error (.httpError "not found")
      ∧ esiHandleResponse 500 none "oops" = .error (.httpError "oops") :=
  ⟨(esiRequest_non2xx_error_message 404 (some "application/json; charset=UTF-8")
      "\x7b\"error\":\"not found\"\x7d" rfl).1
      (.obj [("error", .str "not found")]) "not found" rfl rfl rfl,
   (esiRequest_non2xx_error_message 500 none "oops" rfl).2 (by simp)⟩

/-- C8: the response body goes through JSON parsing exactly when the
content-type header is exactly `application/json; charset=UTF-8`, is kept
as raw text exactly otherwise, and the whole response handling factors
through this status-independent parse step, so the choice cannot depend
on the HTTP status. -/
theorem esiParseBody_json_iff_content_type (status : Nat) (contentType : Option String)
    (body : String) :
    (((∃ v, esiParseResponseBody contentType body = .ok (.json v))
        ∨ esiParseResponseBody contentType body = .error .bodyParseFailed)
      ↔ contentType = some "application/json; charset=UTF-8")
      ∧ (∀ t, esiParseResponseBody contentType body = .ok (.text t)
        ↔ (contentType ≠ some "application/json; charset=UTF-8" ∧ t = body))
      ∧ esiHandleResponse status contentType body
          = (match esiParseResponseBody contentType body with
             | .error err => .error err
             | .ok rspBody =>
               if esiResponseOk status then .ok rspBody
               else if contentType = some esiJsonContentType then
                 .error (.httpError (esiErrorFieldMessage rspBody))
               else .error (.httpError (esiRawBodyMessage rspBody))) := by
  refine ⟨?_, ?_, rfl⟩
  · by_cases hct : contentType = some "application/json; charset=UTF-8"
    · cases hparse : jsonParse body with
      | none => simp [esiParseResponseBody, esiJsonContentType, hct, hparse]
      | some v => simp [esiParseResponseBody, esiJsonContentType, hct, hparse]
    · simp [esiParseResponseBody, esiJsonContentType, hct]
  · intro t
    by_cases hct : contentType = some "application/json; charset=UTF-8"
    · cases hparse : jsonParse body with
      | none => simp [esiParseResponseBody, esiJsonContentType, hct, hparse]
      | some v => simp [esiParseResponseBody, esiJsonContentType, hct, hparse]
    · simp [esiParseResponseBody, esiJsonContentType, hct, eq_comm]

/-- C10: whatever options the `ESIClient` constructor receives — a
datasource value included — the configured datasource is the constant
tranquility, the parameter list `request` builds starts with the
datasource pair ahead of every caller-supplied parameter, and the
serialized query string starts with `datasource=tranquility`. -/
theorem esiClient_datasource_tranquility_first (options : Option ESIClientOptions)
    (initParams : Option (List (String × JsValue))) :
    (esiClientInit options).datasource = "tranquility"
      ∧ buildQueryParams (esiClientInit options).datasource initParams
          = ("datasource", "tranquility") :: callerQueryParams initParams
      ∧ (∃ tail : String,
          queryStringOfParams (buildQueryParams (esiClientInit options).datasource initParams)
            = "datasource=tranquility" ++ tail) := by
  have hds : (esiClientInit options).datasource = "tranquility" := by
    cases options <;> rfl
  refine ⟨hds, by rw [hds]; rfl, ?_⟩
  rw [hds]
  show ∃ tail, queryStringOfParams (("datasource", "tranquility") :: callerQueryParams initParams)
      = "datasource=tranquility" ++ tail
  cases hcp : callerQueryParams initParams with
  | nil =>
    refine ⟨"", ?_⟩
    rw [queryStringOfParams]
    rfl
  | cons kv rest =>
    refine ⟨"&" ++ queryStringOfParams (kv :: rest), ?_⟩
    rw [queryStringOfParams]
    show urlFormEncode "datasource" ++ "=" ++ urlFormEncode "tranquility" ++ "&"
        ++ queryStringOfParams (kv :: rest) = _
    rw [show urlFormEncode "datasource" = "datasource" from rfl,
      show urlFormEncode "tranquility" = "tranquility" from rfl]
    rw [show ("datasource" ++ "=" ++ "tranquility" : String) = "datasource=tranquility" from rfl]
    rw [String.append_assoc]

set_option maxRecDepth 40000 in
/-- C9 counterexample: the record whose access_token is the empty string
contains an access_token field, yet saving it and loading it back yields
undefined — the load treats a falsy access_token as no cached token — so
the loaded result carries no token fields at all. -/
theorem tokenRecord_empty_access_token_roundtrip_fails :
    getTokenFromCache true (saveTokenToCache (TokenRecord.toJs ⟨"", "Bearer", 1200, "r"⟩)) 0
        = .jsUndefined
      ∧ CacheLoadResult.jsUndefined
          ≠ .record (TokenRecord.toJs ⟨"", "Bearer", 1200, "r"⟩) :=
  ⟨by rfl, by simp⟩

/-- C9 as amended: for every TokenRecord whose access_token is non-empty
(truthy), saving it with `saveTokenToCache` and loading it back with
`getTokenFromCache` returns the record itself, whose four token fields
are exactly the saved ones. -/
theorem tokenRecord_cache_roundtrip (a tt rt : String) (e : Int) (now : Int)
    (ha : a ≠ "") :
    getTokenFromCache true (saveTokenToCache (TokenRecord.toJs ⟨a, tt, e, rt⟩)) now
        = .record (TokenRecord.toJs ⟨a, tt, e, rt⟩)
      ∧ jsGetField (TokenRecord.toJs ⟨a, tt, e, rt⟩) "access_token" = some (.str a)
      ∧ jsGetField (TokenRecord.toJs ⟨a, tt, e, rt⟩) "token_type" = some (.str tt)
      ∧ jsGetField (TokenRecord.toJs ⟨a, tt, e, rt⟩) "expires_in" = some (.num e)
      ∧ jsGetField (TokenRecord.toJs ⟨a, tt, e, rt⟩) "refresh_token" = some (.str rt) := by
  have hfield : jsGetField (TokenRecord.toJs ⟨a, tt, e, rt⟩) "access_token" = some (.str a) := by
    simp [TokenRecord.toJs, jsGetField, jsFieldLookup]
  refine ⟨?_, hfield, by simp [TokenRecord.toJs, jsGetField, jsFieldLookup],
    by simp [TokenRecord.toJs, jsGetField, jsFieldLookup],
    by simp [TokenRecord.toJs, jsGetField, jsFieldLookup]⟩
  have hlen : (saveTokenToCache (TokenRecord.toJs ⟨a, tt, e, rt⟩)).length ≠ 0 := by
    show (jsonStringifyChars (TokenRecord.toJs ⟨a, tt, e, rt⟩)).length ≠ 0
    simp [TokenRecord.toJs, jsonStringifyChars, jsonStringifyFields, jsonQuote]
  have hparse : jsonParse (saveTokenToCache (TokenRecord.toJs ⟨a, tt, e, rt⟩))
      = some (TokenRecord.toJs ⟨a, tt, e, rt⟩) := jsonParse_tokenRecord a tt rt e
  simp only [TokenRecord.toJs] at hfield hlen hparse
  simp [getTokenFromCache, hlen, hparse, hfield, TokenRecord.toJs, jsTruthy, jsTruthyOpt,
    JsPromise.isTruthy, ha]

/-- Closed instance of `tokenRecord_cache_roundtrip` at a concrete record. -/
theorem tokenRecord_cache_roundtrip_witness :
    getTokenFromCache true (saveTokenToCache (TokenRecord.toJs ⟨"tok", "Bearer", 1200, "r"⟩)) 0
        = .record (TokenRecord.toJs ⟨"tok", "Bearer", 1200, "r"⟩)
      ∧ jsGetField (TokenRecord.toJs ⟨"tok", "Bearer", 1200, "r"⟩) "access_token"
          = some (.str "tok")
      ∧ jsGetField (TokenRecord.toJs ⟨"tok", "Bearer", 1200, "r"⟩) "token_type"
          = some (.str "Bearer")
      ∧ jsGetField (TokenRecord.toJs ⟨"tok", "Bearer", 1200, "r"⟩) "expires_in"
          = some (.num 1200)
      ∧ jsGetField (TokenRecord.toJs ⟨"tok", "Bearer", 1200, "r"⟩) "refresh_token"
          = some (.str "r") :=
  tokenRecord_cache_roundtrip "tok" "Bearer" "r" 1200 0 (by decide)

set_option maxRecDepth 40000 in
/-- C1: evaluated at a cached record whose access token is expired (exp
one second past the epoch, clock at 1.7e9) and which carries a refresh
token, `requestByNative` returns the stale cached record as-is: the
un-awaited promise `validateJwt` returns is truthy, so the refresh branch
is unreachable, even though the token is invalid by the code's own
expiry check (the promise settles falsy).  The claim's refresh grant
never happens; no route to the refresh call exists for this input. -/
theorem stale_token_returned_without_refresh :
    requestByNativeRoute true (saveTokenToCache staleTokenSample) 1700000000
        = .returnCached staleTokenSample
      ∧ (validateJwt (.str expiredJwtSample) 1700000000).settlement = .ok none
      ∧ (∀ rt, requestByNativeRoute true (saveTokenToCache staleTokenSample) 1700000000
          ≠ .returnRefreshPromise rt) :=
  ⟨by rfl, by rfl, fun rt h => by
    rw [show requestByNativeRoute true (saveTokenToCache staleTokenSample) 1700000000
        = .returnCached staleTokenSample from by rfl] at h
    exact AcquireRoute.noConfusion h⟩
